import Mathlib

/-!
Verification of the configuration library (value coercion, value sources,
property binding, declaration registry, settings tree).

The JavaScript/TypeScript source is shallowly embedded:

* `JSVal` models the runtime values of `VarType` plus the two absence
  markers `null` and `undefined` (src/src/settings/value.ts, the `VarType`
  union).  `VarType` has no nested arrays, so array elements are stringified
  with a one-level element stringifier.
* JS numbers are modelled as exact rationals built with `mkRat`; the float
  values NaN and Infinity do not arise in any statement below (a parse that
  JS would answer with NaN is `none` here).
* JS builtins used by the source (`String(v)`, `Array.prototype.join`,
  `String.prototype.trim/split/toLowerCase/startsWith`, `parseFloat`,
  `Array.prototype.map` passing (element, index), `Object.assign`,
  property-key coercion) are modelled by the `js*` helpers, each with a note.
-/

/-- A JavaScript runtime value as the library sees it: a scalar of `VarType`
(string, number, boolean), a homogeneous-intent array, or one of the two
absence markers. -/
inductive JSVal where
  | null
  | undefined
  | str (s : String)
  | num (q : ℚ)
  | bool (b : Bool)
  | arr (elems : List JSVal)

/-- Decimal rendering of an exact rational: integers render as JS renders
them; a non-integer renders as "num/den", which only stands in for the JS
decimal rendering (both are non-blank, which is all the source inspects). -/
def ratToString (q : ℚ) : String :=
  if q.den = 1 then toString q.num else toString q.num ++ "/" ++ toString q.den

/-- One array element under `Array.prototype.join` (reached via JS
`String(array)`): null and undefined render as the empty string, scalars as
their string form.  `VarType` has no nested arrays, so the nested-array case
(unreachable from the library's types) renders as the empty string. -/
def jsElemToString : JSVal → String
  | .null => ""
  | .undefined => ""
  | .str s => s
  | .num q => ratToString q
  | .bool true => "true"
  | .bool false => "false"
  | .arr _ => ""

/-- JS `String(v)`: "null"/"undefined" for the absence markers, the value
itself for strings, decimal for numbers, "true"/"false" for booleans, and
`join(",")` for arrays. -/
def jsToString : JSVal → String
  | .null => "null"
  | .undefined => "undefined"
  | .str s => s
  | .num q => ratToString q
  | .bool true => "true"
  | .bool false => "false"
  | .arr xs => String.intercalate (",") (xs.map jsElemToString)

/-- JS truthiness: null, undefined, the empty string, the number 0 and
false are falsy; every array (even empty) is truthy. -/
def jsTruthy : JSVal → Bool
  | .null => false
  | .undefined => false
  | .str s => if s = "" then false else true
  | .num q => if q = 0 then false else true
  | .bool b => b
  | .arr _ => true

/-- JS `a || b`. -/
def jsOr (a b : JSVal) : JSVal :=
  if jsTruthy a then a else b

/-- A string consisting of whitespace only, i.e. JS `s.trim() === ""`. -/
def isBlankString (s : String) : Bool :=
  s.toList.all Char.isWhitespace

/-- JS `s.toLowerCase()` (ASCII letters, which is all the source compares). -/
def toLowerAscii (s : String) : String :=
  String.mk (s.toList.map Char.toLower)

/-- Value.isUndefined (value.ts lines 72-74): `[null, undefined].includes(value)`. -/
def Value.isUndefined : JSVal → Bool
  | .null => true
  | .undefined => true
  | _ => false

/-- Value.isUndefinedOrEmpty (value.ts lines 81-83):
`Value.isUndefined(value) || String(value).trim() === ""`. -/
def Value.isUndefinedOrEmpty (value : JSVal) : Bool :=
  Value.isUndefined value || isBlankString (jsToString value)

/-- Value.isBoolean (value.ts lines 90-92): the value is present and is,
under strict `===` comparison, one of
`[true, 1, "true", "1", false, 0, "false", "0"]` (case-sensitive). -/
def Value.isBoolean (value : JSVal) : Bool :=
  !(Value.isUndefined value) &&
    (match value with
     | .bool _ => true
     | .num q => if q = 1 ∨ q = 0 then true else false
     | .str s => if s = "true" ∨ s = "1" ∨ s = "false" ∨ s = "0" then true else false
     | _ => false)

/-- Value.getString (value.ts lines 100-102): the supplied default when the
value is absent or blank, else `String(value)`. -/
def Value.getString (value defaultValue : JSVal) : JSVal :=
  if Value.isUndefinedOrEmpty value then defaultValue else .str (jsToString value)

/-- Numeric value of a digit list (most significant first). -/
def digitsVal (ds : List Char) : Nat :=
  ds.foldl (fun a c => a * 10 + (c.toNat - 48)) 0

/-- Exponent part of a JS float literal prefix: `e`/`E`, an optional sign and
digits; an `e` not followed by digits contributes exponent 0 (JS parseFloat
keeps the mantissa in that case). -/
def expPart (cs : List Char) : Int :=
  match cs with
  | [] => 0
  | c :: rest =>
    if c = 'e' ∨ c = 'E' then
      match rest with
      | [] => 0
      | c2 :: r2 =>
        if c2 = '-' then (if r2.takeWhile Char.isDigit = [] then 0 else -(digitsVal (r2.takeWhile Char.isDigit) : Int))
        else if c2 = '+' then (if r2.takeWhile Char.isDigit = [] then 0 else (digitsVal (r2.takeWhile Char.isDigit) : Int))
        else (if rest.takeWhile Char.isDigit = [] then 0 else (digitsVal (rest.takeWhile Char.isDigit) : Int))
    else 0

/-- JS `parseFloat`: skip leading whitespace, then the longest prefix that is
an optionally signed decimal literal with optional fraction and exponent;
`none` models NaN (no valid numeric prefix).  Infinity is not modelled (it
occurs in no statement below). -/
def jsParseFloat (s : String) : Option ℚ :=
  let cs0 := s.toList.dropWhile Char.isWhitespace
  let sign : Int := match cs0 with
    | c :: _ => if c = '-' then -1 else 1
    | [] => 1
  let cs1 := match cs0 with
    | c :: rest => if c = '-' ∨ c = '+' then rest else cs0
    | [] => cs0
  let intDigits := cs1.takeWhile Char.isDigit
  let cs2 := cs1.drop intDigits.length
  let fracDigits := match cs2 with
    | c :: rest => if c = '.' then rest.takeWhile Char.isDigit else []
    | [] => []
  let cs3 := match cs2 with
    | c :: rest => if c = '.' then (rest.drop fracDigits.length) else cs2
    | [] => cs2
  if intDigits = [] ∧ fracDigits = [] then none
  else
    let mantissa : Int :=
      sign * Int.ofNat (digitsVal intDigits * 10 ^ fracDigits.length + digitsVal fracDigits)
    let exp10 : Int := expPart cs3 - Int.ofNat fracDigits.length
    some (if 0 ≤ exp10 then mkRat (mantissa * 10 ^ exp10.toNat) 1
          else mkRat mantissa (10 ^ (-exp10).toNat))

/-- Value.getNumber (value.ts lines 136-139):
`const num = parseFloat(String(value)); return isNaN(num) ? defaultValue : num;`. -/
def Value.getNumber (value defaultValue : JSVal) : JSVal :=
  match jsParseFloat (jsToString value) with
  | some q => .num q
  | none => defaultValue

/-- Value.getBoolean (value.ts lines 114-127): strict boolean passthrough,
then the lower-cased string form against the truthy tokens "true"/"1" and
falsy tokens "false"/"0" (the non-string members of the token lists cannot
equal a string under `includes`), else the supplied default. -/
def Value.getBoolean (value defaultValue : JSVal) : JSVal :=
  match value with
  | .bool b => .bool b
  | _ =>
    if toLowerAscii (jsToString value) = "true" ∨ toLowerAscii (jsToString value) = "1" then .bool true
    else if toLowerAscii (jsToString value) = "false" ∨ toLowerAscii (jsToString value) = "0" then .bool false
    else defaultValue

/-- Split a character list at commas (the commas themselves dropped). -/
def splitAtCommas (cs : List Char) (acc : List Char) : List (List Char) :=
  match cs with
  | [] => [acc.reverse]
  | c :: rest => if c = ',' then acc.reverse :: splitAtCommas rest [] else splitAtCommas rest (c :: acc)

def trimLeftWS (cs : List Char) : List Char := cs.dropWhile Char.isWhitespace

def trimRightWS (cs : List Char) : List Char := (cs.reverse.dropWhile Char.isWhitespace).reverse

/-- Middle and last pieces of a comma split: whitespace adjacent to the commas
is consumed (the last piece keeps its trailing whitespace). -/
def splitTailPieces : List (List Char) → List String
  | [] => []
  | [last] => [String.mk (trimLeftWS last)]
  | mid :: rest => String.mk (trimLeftWS (trimRightWS mid)) :: splitTailPieces rest

/-- JS `s.split(/\s*,\s*/)`: split at commas, consuming the whitespace run
adjacent to each comma; with no comma the string is returned unchanged
(leading/trailing whitespace of the whole string is kept). -/
def splitCommaWS (s : String) : List String :=
  match splitAtCommas s.toList [] with
  | [] => []
  | [single] => [String.mk single]
  | first :: more => String.mk (trimRightWS first) :: splitTailPieces more

/-- JS `Array.prototype.map(converter)` calls the converter with
(element, index): the element index arrives as the converter's second
(default-value) parameter. -/
def mapWithIndexFrom (converter : JSVal → JSVal → JSVal) (i : Nat) : List String → List JSVal
  | [] => []
  | t :: ts => converter (.str t) (.num (i : ℚ)) :: mapWithIndexFrom converter (i + 1) ts

/-- The `String(value).split(/\s*,\s*/).map(converter)` expression of
Value.getArray (value.ts line 159). -/
def convertedElems (converter : JSVal → JSVal → JSVal) (value : JSVal) : List JSVal :=
  mapWithIndexFrom converter 0 (splitCommaWS (jsToString value))

/-- Value.getArray (value.ts lines 151-165): the fallback (`defaultValue || []`)
when `String(value)` is blank; else split on commas, map the converter over
the pieces (JS map passes the index as the converter's default), and return
the fallback when some converted element stringifies to blank, else the
converted array. -/
def Value.getArray (value : JSVal) (converter : JSVal → JSVal → JSVal) (defaultValue : JSVal) : JSVal :=
  if Value.isUndefinedOrEmpty (.str (jsToString value)) then jsOr defaultValue (.arr [])
  else if (convertedElems converter value).any (fun r => Value.isUndefinedOrEmpty (.str (jsToString r))) then
    jsOr defaultValue (.arr [])
  else .arr (convertedElems converter value)

/-- ITypeInfo (value.ts lines 49-53): a display name, a converter and a
validity predicate. -/
structure ITypeInfo where
  name : String
  convert : JSVal → JSVal → JSVal
  isValid : JSVal → Bool

/-- typeInfo.string (decorators.ts lines 28-32). -/
def stringTI : ITypeInfo :=
  { name := "string"
    convert := Value.getString
    isValid := fun value => !(Value.isUndefinedOrEmpty value) }

/-- typeInfo.number (decorators.ts lines 34-38):
`isValid` is `!isNaN(parseFloat(String(value)))`. -/
def numberTI : ITypeInfo :=
  { name := "number"
    convert := Value.getNumber
    isValid := fun value => (jsParseFloat (jsToString value)).isSome }

/-- typeInfo.boolean (decorators.ts lines 40-44). -/
def booleanTI : ITypeInfo :=
  { name := "boolean"
    convert := Value.getBoolean
    isValid := Value.isBoolean }

/-- typeInfo for "string[]" (decorators.ts lines 46-52): `isValid` is
`Value.getArray(value, Value.getString) !== undefined`. -/
def stringListTI : ITypeInfo :=
  { name := "string[]"
    convert := fun value defaultValue => Value.getArray value Value.getString defaultValue
    isValid := fun value => !(Value.isUndefined (Value.getArray value Value.getString .undefined)) }

/-- typeInfo for "number[]" (decorators.ts lines 54-60). -/
def numberListTI : ITypeInfo :=
  { name := "number[]"
    convert := fun value defaultValue => Value.getArray value Value.getNumber defaultValue
    isValid := fun value => !(Value.isUndefined (Value.getArray value Value.getNumber .undefined)) }

/-- typeInfo for "boolean[]" (decorators.ts lines 62-68). -/
def booleanListTI : ITypeInfo :=
  { name := "boolean[]"
    convert := fun value defaultValue => Value.getArray value Value.getBoolean defaultValue
    isValid := fun value => !(Value.isUndefined (Value.getArray value Value.getBoolean .undefined)) }

/-- A JS object with string keys as the source uses them
(`Record<string, T>`): an association list in first-insertion order;
assigning to an existing key updates it in place. -/
abbrev RecordJS (α : Type) := List (String × α)

/-- First-of-two on options (strict, no thunk). -/
def oOr {α : Type} : Option α → Option α → Option α
  | some v, _ => some v
  | none, w => w

/-- Property read `m[k]`: the value at key `k`, `none` when absent. -/
def rget {α : Type} : RecordJS α → String → Option α
  | [], _ => none
  | p :: rest, k => if p.1 = k then some p.2 else rget rest k

/-- Property write `m[k] = v`: update in place, or append a new key. -/
def rset {α : Type} : RecordJS α → String → α → RecordJS α
  | [], k, v => [(k, v)]
  | p :: rest, k, v => if p.1 = k then (k, v) :: rest else p :: rset rest k v

/-- JS `Object.assign(m, b)`: every own property of `b` written into `m`
in order (overwriting existing keys). -/
def rassign {α : Type} (m b : RecordJS α) : RecordJS α :=
  b.foldl (fun acc p => rset acc p.1 p.2) m

/-- The value the LAST binding of key `k` in the list carries (an
`Object.assign` of this list onto anything leaves that value at `k`). -/
def rgetLast {α : Type} : RecordJS α → String → Option α
  | [], _ => none
  | p :: rest, k => oOr (rgetLast rest k) (if p.1 = k then some p.2 else none)

/-- A value source (value.ts lines 58-60) as the binder consumes it: a
function from a JS lookup key to the raw result. -/
abbrev ValueSource := JSVal → JSVal

/-- The loop body of AnySource.getValue (any.ts lines 8-17): the first
source whose answer is not absent wins; `null` when every source is absent. -/
def anyGetValueList : List ValueSource → JSVal → JSVal
  | [], _ => .null
  | s :: rest, name => if Value.isUndefined (s name) then anyGetValueList rest name else s name

/-- AnySource (any.ts lines 3-18): an ordered list of wrapped sources. -/
structure AnySource where
  sources : List ValueSource

def AnySource.getValue (a : AnySource) (name : JSVal) : JSVal :=
  anyGetValueList a.sources name

/-- JS `s.startsWith("-")`. -/
def startsWithDash (s : String) : Bool :=
  match s.toList with
  | c :: _ => c = '-'
  | [] => false

/-- CommandLineArguments state (commandLine.ts lines 6-14): the positional
list and the flag table (a flag's value may be the stored `null`). -/
structure CommandLineArguments where
  positional : List String
  variablesMap : RecordJS (Option String)

/-- CommandLineArguments.parseCommandLine (commandLine.ts lines 29-49): shift
tokens left to right; a token without a leading dash is pushed on the
positional list; a dash token becomes a flag whose value is the next token,
which is consumed — unless the next token is falsy (absent or the empty
string) or itself starts with a dash, in which case the stored value is
`null` and nothing is consumed. -/
def CommandLineArguments.parseCommandLine : List String → CommandLineArguments → CommandLineArguments
  | [], st => st
  | [arg], st =>
    if startsWithDash arg then { st with variablesMap := rset st.variablesMap arg none }
    else { st with positional := st.positional ++ [arg] }
  | arg :: next :: rest, st =>
    if startsWithDash arg then
      if next = "" ∨ startsWithDash next then
        CommandLineArguments.parseCommandLine (next :: rest)
          { st with variablesMap := rset st.variablesMap arg none }
      else
        CommandLineArguments.parseCommandLine rest
          { st with variablesMap := rset st.variablesMap arg (some next) }
    else
      CommandLineArguments.parseCommandLine (next :: rest)
        { st with positional := st.positional ++ [arg] }
termination_by structural l st => l

/-- The constructor (commandLine.ts lines 20-23): parse the given argv into
an empty state. -/
def mkCommandLineArguments (argv : List String) : CommandLineArguments :=
  CommandLineArguments.parseCommandLine argv { positional := [], variablesMap := [] }

/-- CommandLineArguments.getValue (commandLine.ts lines 56-62): a numeric
key reads the positional list, any other key reads the flag table (the key
coerced to its string form, as JS property access does). -/
def CommandLineArguments.getValue (c : CommandLineArguments) (name : JSVal) : JSVal :=
  match name with
  | .num q =>
    if q.den = 1 ∧ 0 ≤ q.num then
      match c.positional[q.num.toNat]? with
      | some s => .str s
      | none => .undefined
    else .undefined
  | k =>
    match rget c.variablesMap (jsToString k) with
    | some (some s) => .str s
    | some none => .null
    | none => .undefined

/-- The value the last occurrence of flag `f` in the token list gives it:
`none` when `f` is never assigned, `some none` when the last occurrence
stores `null`, `some (some v)` when it consumes the value token `v`.  Later
occurrences shadow earlier ones (the `oOr` keeps the tail's answer). -/
def lastFlagValue (f : String) : List String → Option (Option String)
  | [] => none
  | [arg] =>
    if startsWithDash arg then (if arg = f then some none else none) else none
  | arg :: next :: rest =>
    if startsWithDash arg then
      if next = "" ∨ startsWithDash next then
        oOr (lastFlagValue f (next :: rest)) (if arg = f then some none else none)
      else
        oOr (lastFlagValue f rest) (if arg = f then some (some next) else none)
    else lastFlagValue f (next :: rest)
termination_by structural l => l

/-- IPropertyDescriptor (settings.ts lines 14-23), with the `index` field the
decorator surface stores for a numeric spec (decorators.ts line 89).  The
source's field names `type`, `default`, `alias` and (in CommandLineArguments)
`variables` collide with Lean tokens, so they appear here as `typeInfo`,
`defaultVal`, `aliasName` and `variablesMap`. -/
structure IPropertyDescriptor where
  name : Option String
  aliasName : Option String
  index : Option ℚ
  typeInfo : ITypeInfo
  defaultVal : JSVal
  optional : Bool
  secret : Bool
  doc : Option String
  source : ValueSource

/-- A live bound property: the descriptor data the accessor pair closes
over, together with the mutable `defaultValue` cell. -/
structure BoundProp where
  varname : Option String
  typeInfo : ITypeInfo
  staticDefault : JSVal
  source : ValueSource
  mutDefault : JSVal

/-- The JS value of `varname` as passed to `source.getValue(varname)`:
the name when present, `undefined` when the descriptor has none. -/
def optNameToJS : Option String → JSVal
  | some s => .str s
  | none => .undefined

/-- Settings.createPropertyDescriptor, seeding (settings.ts lines 283-294):
destructures only `name`, `type`, `default` and `source`; the mutable default
starts as `undefined` when the static default is absent, else as
`type.convert(String(propertyDefault))` — the STRING form, with no fallback. -/
def bindProp (settings : IPropertyDescriptor) : BoundProp :=
  { varname := settings.name
    typeInfo := settings.typeInfo
    staticDefault := settings.defaultVal
    source := settings.source
    mutDefault :=
      if Value.isUndefined settings.defaultVal then .undefined
      else settings.typeInfo.convert (.str (jsToString settings.defaultVal)) .undefined }

/-- The getter (settings.ts lines 291-294): query the source with `varname`
(the descriptor's name; `index` is never consulted) and convert the raw
result against the current mutable default. -/
def readProp (p : BoundProp) : JSVal :=
  p.typeInfo.convert (p.source (optNameToJS p.varname)) p.mutDefault

/-- The setter (settings.ts lines 302-306): update the mutable default to
`type.convert(value)` when the original static default is absent or the
written value is present; otherwise ignore the write. -/
def writeProp (p : BoundProp) (value : JSVal) : BoundProp :=
  if Value.isUndefined p.staticDefault || !(Value.isUndefined value) then
    { p with mutDefault := p.typeInfo.convert value .undefined }
  else p

/-- Settings.extractStoredVariables (settings.ts lines 328-346), with the
ancestor walk abstracted to the list of per-type registry buckets it visits
(the instance's own type first, then each ancestor): the while loop
`Object.assign`s each visited bucket into the result. -/
def Settings.extractStoredVariables (chain : List (RecordJS IPropertyDescriptor)) :
    RecordJS IPropertyDescriptor :=
  chain.foldl rassign []

/-- The declaration for key `k` in the LAST visited bucket that declares it
(within one bucket, the last binding): ancestor entries override the
instance's own type's entries. -/
def latestDeclaration {α : Type} : List (RecordJS α) → String → Option α
  | [], _ => none
  | bucket :: rest, k => oOr (latestDeclaration rest k) (rgetLast bucket k)

/-- One declared variable of a settings node as getInvalidVariables consumes
it: the optional flag, the live value (`self[fieldName]`, the bound
property's current read) and the declared type. -/
structure OwnVar where
  optional : Bool
  value : JSVal
  typeInfo : ITypeInfo

mutual
/-- A settings tree node: its own declared variables (in declaration order)
and its child Settings fields (in field order).  Children are given as a
dedicated list so the tree walks below are structurally recursive; the
`visited` identity guard of getSettings (a no-op on trees without shared
instances) is not modelled. -/
inductive SNode where
  | mk (vars : List (String × OwnVar)) (children : SNodeChildren)
inductive SNodeChildren where
  | nil
  | cons (fieldName : String) (child : SNode) (rest : SNodeChildren)
end

def SNode.vars : SNode → List (String × OwnVar)
  | .mk v _ => v

def SNode.children : SNode → SNodeChildren
  | .mk _ c => c

/-- Settings.getVariables(false) (settings.ts lines 74-90): the node's own
declared fields with their live values, as a JS object. -/
def Settings.getVariables (n : SNode) : RecordJS OwnVar :=
  n.vars.foldl (fun acc p => rset acc p.1 p.2) []

mutual
/-- Settings.getSettings (settings.ts lines 100-118): every own field whose
value is a Settings instance; with `recursive` the child's own descendants
are `Object.assign`ed in right after the child. -/
def Settings.getSettings (recursive : Bool) : SNode → RecordJS SNode
  | .mk _ children => Settings.getSettingsChildren recursive children []

def Settings.getSettingsChildren (recursive : Bool) : SNodeChildren → RecordJS SNode → RecordJS SNode
  | .nil, acc => acc
  | .cons fieldName child rest, acc =>
    Settings.getSettingsChildren recursive rest
      (if recursive then rassign (rset acc fieldName child) (Settings.getSettings true child)
       else rset acc fieldName child)
end

/-- The invalidity test of settings.ts line 141: not optional and the live
value fails the type's validity predicate. -/
def invalidVar (v : OwnVar) : Bool :=
  !v.optional && !(v.typeInfo.isValid v.value)

/-- The inner `getInvalidVariables()` call of settings.ts line 148: its
`recursive` parameter is undefined (falsy), so it only flags the node's own
invalid variables. -/
def Settings.getInvalidVariablesOwn (n : SNode) : RecordJS OwnVar :=
  (Settings.getVariables n).foldl
    (fun invalid p => if invalidVar p.2 then rset invalid p.1 p.2 else invalid) []

/-- Settings.getInvalidVariables (settings.ts lines 134-154).  Faithful to
the source's block structure: the `if (recursive)` collection over
`this.getSettings(true)` sits INSIDE the loop over the node's own variables,
so it runs once per own variable (and never when the node has none). -/
def Settings.getInvalidVariables (recursive : Bool) (n : SNode) : RecordJS OwnVar :=
  (Settings.getVariables n).foldl
    (fun invalid p =>
      let invalid1 := if invalidVar p.2 then rset invalid p.1 p.2 else invalid
      if recursive then
        (Settings.getSettings true n).foldl
          (fun acc q => rassign acc (Settings.getInvalidVariablesOwn q.2)) invalid1
      else invalid1)
    []

/-! ## Concrete instances used by the theorems below -/

/-- The CLI source of the end-to-end scenario: tokens
`["--port", "9090", "positional1"]`. -/
def demoCLA : CommandLineArguments :=
  mkCommandLineArguments ["--port", "9090", "positional1"]

/-- A property declared with only a positional index (what
`argv.scalar(0)` stores, decorators.ts lines 88-93), bound to the demo CLI
source. -/
def demoC2Descriptor : IPropertyDescriptor :=
  { name := none
    aliasName := none
    index := some 0
    typeInfo := stringTI
    defaultVal := .undefined
    optional := true
    secret := false
    doc := none
    source := fun k => demoCLA.getValue k }

/-- A descriptor whose static default is the whitespace-only string " ". -/
def demoC9Descriptor : IPropertyDescriptor :=
  { name := some "PROP"
    aliasName := none
    index := none
    typeInfo := stringTI
    defaultVal := .str " "
    optional := false
    secret := false
    doc := none
    source := fun _ => .undefined }

/-- A bound property whose static default is present. -/
def demoC3Prop : BoundProp :=
  { varname := some "PROP"
    typeInfo := stringTI
    staticDefault := .str "keep"
    source := fun _ => .undefined
    mutDefault := .str "keep" }

/-- A source with no values, for descriptors whose source is irrelevant. -/
def demoAbsentSource : ValueSource := fun _ => .undefined

/-- A registry descriptor for field "f" carrying the given doc string. -/
def demoDescriptorDoc (d : String) : IPropertyDescriptor :=
  { name := some "F"
    aliasName := none
    index := none
    typeInfo := stringTI
    defaultVal := .undefined
    optional := false
    secret := false
    doc := some d
    source := demoAbsentSource }

/-- The registry bucket of the instance's own type: field "f". -/
def demoChildBucket : RecordJS IPropertyDescriptor :=
  [("f", demoDescriptorDoc "declared-on-child")]

/-- The registry bucket of an ancestor type: the same field "f". -/
def demoParentBucket : RecordJS IPropertyDescriptor :=
  [("f", demoDescriptorDoc "declared-on-parent")]

/-- The walk order of extractStoredVariables: own type first, then the
ancestor. -/
def demoRegistryChain : List (RecordJS IPropertyDescriptor) :=
  [demoChildBucket, demoParentBucket]

/-- A required string variable whose live value is absent (invalid). -/
def demoInvalidVar : OwnVar :=
  { optional := false, value := .undefined, typeInfo := stringTI }

/-- A required string variable whose live value is present (valid). -/
def demoValidVar : OwnVar :=
  { optional := false, value := .str "ok", typeInfo := stringTI }

/-- A child settings node declaring one invalid required variable "req". -/
def demoChildNode : SNode := .mk [("req", demoInvalidVar)] .nil

/-- A root settings node with ZERO own variables and one child. -/
def demoRootNoVars : SNode := .mk [] (.cons ("child") demoChildNode .nil)

/-- A root settings node with one (valid) own variable and the same child. -/
def demoRootOneVar : SNode := .mk [("own", demoValidVar)] (.cons ("child") demoChildNode .nil)

/-- A source that reports absence for every key. -/
def demoSourceAbsent : ValueSource := fun _ => .undefined

/-- A source mapping "X" to "5". -/
def demoSourceB5 : ValueSource := fun k =>
  match k with
  | .str s => if s = "X" then .str "5" else .undefined
  | _ => .undefined

/-- A source mapping "X" to "7". -/
def demoSourceA7 : ValueSource := fun k =>
  match k with
  | .str s => if s = "X" then .str "7" else .undefined
  | _ => .undefined

/-! ## Record and option lemmas -/

theorem oOr_none_right {α : Type} (a : Option α) : oOr a none = a := by
  cases a <;> rfl

theorem oOr_assoc {α : Type} (a b c : Option α) : oOr (oOr a b) c = oOr a (oOr b c) := by
  cases a <;> rfl

theorem oOr_ite_some {α : Type} (c : Prop) [Decidable c] (x : α) (y : Option α) :
    oOr (if c then some x else none) y = if c then some x else y := by
  by_cases h : c <;> simp [h, oOr]

theorem rget_rset {α : Type} : ∀ (m : RecordJS α) (k : String) (v : α) (k2 : String),
    rget (rset m k v) k2 = if k = k2 then some v else rget m k2
  | [], k, v, k2 => by simp [rset, rget]
  | p :: rest, k, v, k2 => by
    by_cases h : p.1 = k
    · by_cases h2 : k = k2 <;> simp [rset, rget, h, h2]
    · by_cases h2 : p.1 = k2
      · have hk : ¬(k = k2) := fun he => h (he ▸ h2)
        have hk2 : ¬(k2 = k) := fun he => hk he.symm
        simp [rset, rget, h, h2, hk, hk2]
      · simp [rset, rget, h, h2, rget_rset rest k v k2]

theorem rget_rassign {α : Type} : ∀ (b m : RecordJS α) (k : String),
    rget (rassign m b) k = oOr (rgetLast b k) (rget m k)
  | [], m, k => rfl
  | p :: rest, m, k => by
    have hrec := rget_rassign rest (rset m p.1 p.2) k
    simp only [rassign, List.foldl_cons] at hrec ⊢
    rw [hrec, rget_rset, rgetLast, oOr_assoc, oOr_ite_some]

theorem rget_foldl_rassign {α : Type} : ∀ (chain : List (RecordJS α)) (m : RecordJS α) (k : String),
    rget (chain.foldl rassign m) k = oOr (latestDeclaration chain k) (rget m k)
  | [], _, _ => rfl
  | b :: rest, m, k => by
    simp only [List.foldl_cons, latestDeclaration]
    rw [rget_foldl_rassign rest (rassign m b) k, rget_rassign, oOr_assoc]

/-- Lookup in the flag table after parsing: the tokens contribute the last
occurrence's value for each flag, shadowing whatever the starting state held. -/
theorem parse_variables_lookup : ∀ (args : List String) (st : CommandLineArguments) (f : String),
    rget (CommandLineArguments.parseCommandLine args st).variablesMap f =
      oOr (lastFlagValue f args) (rget st.variablesMap f)
  | [], _, _ => rfl
  | [arg], st, f => by
    by_cases h : startsWithDash arg = true
    · simp only [CommandLineArguments.parseCommandLine, lastFlagValue, h, if_true]
      rw [rget_rset, oOr_ite_some]
    · simp [CommandLineArguments.parseCommandLine, lastFlagValue, h, oOr]
  | arg :: next :: rest, st, f => by
    by_cases h : startsWithDash arg = true
    · by_cases hn : next = "" ∨ startsWithDash next = true
      · simp only [CommandLineArguments.parseCommandLine, lastFlagValue, h, hn, if_true]
        rw [parse_variables_lookup (next :: rest) _ f]
        simp only [rget_rset, oOr_assoc, oOr_ite_some]
      · simp only [CommandLineArguments.parseCommandLine, lastFlagValue, h, hn, if_true, if_false]
        rw [parse_variables_lookup rest _ f]
        simp only [rget_rset, oOr_assoc, oOr_ite_some]
    · simp only [CommandLineArguments.parseCommandLine, lastFlagValue, h, if_false]
      exact parse_variables_lookup (next :: rest) _ f

/-! ## Converter case lemmas (used by the C8 theorem) -/

theorem getString_default_or_coerced (raw d : JSVal) :
    Value.getString raw d = d ∨
      ((∃ s, Value.getString raw d = .str s) ∧
        ∀ d2, Value.getString raw d2 = Value.getString raw d) := by
  by_cases h : Value.isUndefinedOrEmpty raw = true
  · exact Or.inl (by simp [Value.getString, h])
  · exact Or.inr ⟨⟨jsToString raw, by simp [Value.getString, h]⟩,
      fun d2 => by simp [Value.getString, h]⟩

theorem getNumber_default_or_coerced (raw d : JSVal) :
    Value.getNumber raw d = d ∨
      ((∃ q, Value.getNumber raw d = .num q) ∧
        ∀ d2, Value.getNumber raw d2 = Value.getNumber raw d) := by
  cases h : jsParseFloat (jsToString raw) with
  | none => exact Or.inl (by simp [Value.getNumber, h])
  | some q => exact Or.inr ⟨⟨q, by simp [Value.getNumber, h]⟩,
      fun d2 => by simp [Value.getNumber, h]⟩

theorem getBoolean_default_or_coerced (raw d : JSVal) :
    Value.getBoolean raw d = d ∨
      ((∃ b, Value.getBoolean raw d = .bool b) ∧
        ∀ d2, Value.getBoolean raw d2 = Value.getBoolean raw d) := by
  cases raw
  case bool b => exact Or.inr ⟨⟨b, rfl⟩, fun d2 => rfl⟩
  all_goals
    simp only [Value.getBoolean]
    split_ifs
    · exact Or.inr ⟨⟨true, rfl⟩, fun d2 => rfl⟩
    · exact Or.inr ⟨⟨false, rfl⟩, fun d2 => rfl⟩
    · exact Or.inl rfl

theorem getArray_default_or_coerced (conv : JSVal → JSVal → JSVal) (raw : JSVal) (ds : List JSVal) :
    Value.getArray raw conv (.arr ds) = .arr ds ∨
      ((∃ xs, Value.getArray raw conv (.arr ds) = .arr xs) ∧
        ∀ d2, Value.getArray raw conv d2 = Value.getArray raw conv (.arr ds)) := by
  by_cases h1 : Value.isUndefinedOrEmpty (.str (jsToString raw)) = true
  · exact Or.inl (by simp [Value.getArray, h1, jsOr, jsTruthy])
  · by_cases h2 : (convertedElems conv raw).any
        (fun r => Value.isUndefinedOrEmpty (.str (jsToString r))) = true
    · exact Or.inl (by simp [Value.getArray, h1, h2, jsOr, jsTruthy])
    · exact Or.inr ⟨⟨convertedElems conv raw, by simp [Value.getArray, h1, h2]⟩,
        fun d2 => by simp [Value.getArray, h1, h2]⟩

/-! ## The claims -/

/-- C1 (code_bug evidence): the all-or-nothing list policy does not hold on
the code.  For the raw input "1,x,3" under the number converter with fallback
[9], `Array.prototype.map` passes each token's index as the converter's
default, so the malformed token "x" at index 1 coerces to 1 instead of
leaving an absent element, the blank-element guard never fires, and the
partially-converted array [1, 1, 3] is returned instead of the fallback [9].
The well-formed case "1,2,3" with fallback [] converts to [1, 2, 3] as the
claim states. -/
theorem c1_malformed_number_list_is_partially_converted :
    numberListTI.convert (.str "1,x,3") (.arr [.num 9]) = .arr [.num 1, .num 1, .num 3] ∧
    Value.getArray (.str "1,x,3") Value.getNumber (.arr [.num 9]) ≠ .arr [.num 9] ∧
    numberListTI.convert (.str "1,2,3") (.arr []) = .arr [.num 1, .num 2, .num 3] := by
  refine ⟨rfl, ?_, rfl⟩
  intro h
  have h2 : Value.getArray (.str "1,x,3") Value.getNumber (.arr [.num 9]) =
      .arr [.num 1, .num 1, .num 3] := rfl
  rw [h2] at h
  simp at h

/-- C2 (code_bug evidence): a property declared with only a positional index
(index 0) against the CLI tokens ["--port", "9090", "positional1"] reads as
the converted default (undefined), because the getter queries the source
with the descriptor's `name` only (undefined here) and never consults
`index` — even though the same source answers the positional query
`getValue(0)` with "positional1" and the flag query with "9090". -/
theorem c2_index_only_descriptor_reads_undefined :
    readProp (bindProp demoC2Descriptor) = JSVal.undefined ∧
    demoCLA.getValue (.num 0) = .str "positional1" ∧
    demoCLA.getValue (.str "--port") = .str "9090" :=
  ⟨rfl, rfl, rfl⟩

/-- C3: writing `v` to a bound property updates the mutable default to
`convert(v)` exactly when the original static default is absent or `v` is
present; otherwise the write leaves the bound property unchanged. -/
theorem c3_write_default_precedence :
    ∀ (p : BoundProp) (v : JSVal),
      ((Value.isUndefined p.staticDefault || !(Value.isUndefined v)) = true →
          writeProp p v = { p with mutDefault := p.typeInfo.convert v .undefined }) ∧
      ((Value.isUndefined p.staticDefault || !(Value.isUndefined v)) = false →
          writeProp p v = p) := by
  intro p v
  constructor <;> intro h <;> simp [writeProp, h]

/-- C3 witness: for a bound property with a present static default, writing
the absent value undefined is ignored, and writing a present value updates
the mutable default to its conversion. -/
theorem c3_write_default_precedence_witness :
    writeProp demoC3Prop JSVal.undefined = demoC3Prop ∧
    writeProp demoC3Prop (.str "new") =
      { demoC3Prop with mutDefault := demoC3Prop.typeInfo.convert (.str "new") .undefined } :=
  ⟨(c3_write_default_precedence demoC3Prop JSVal.undefined).2 (by decide),
   (c3_write_default_precedence demoC3Prop (.str "new")).1 (by decide)⟩

/-- C4 counterexample: walking the registry chain [own-type bucket,
ancestor bucket], both declaring field "f", the merged mapping holds the
ANCESTOR's descriptor (doc "declared-on-parent"), not the earliest-visited
type's ("declared-on-child"): `Object.assign` overwrites existing keys. -/
theorem c4_ancestor_merge_overwrites_counterexample :
    ((rget (Settings.extractStoredVariables demoRegistryChain) ("f")).map (fun d => d.doc)) =
      some (some ("declared-on-parent")) ∧
    ((rget (Settings.extractStoredVariables demoRegistryChain) ("f")).map (fun d => d.doc)) ≠
      some (some ("declared-on-child")) := by
  refine ⟨rfl, ?_⟩
  intro h
  have h2 : ((rget (Settings.extractStoredVariables demoRegistryChain) ("f")).map (fun d => d.doc)) =
      some (some ("declared-on-parent")) := rfl
  rw [h2] at h
  simp at h

/-- C4 amended: in the merged field-to-descriptor mapping, a later-visited
(ancestor) type's entry DOES overwrite an entry of the same field name; for
every chain and field name the result holds the declaration of the
last-visited bucket that declares the field. -/
theorem c4_latest_visited_declaration_retained :
    ∀ (chain : List (RecordJS IPropertyDescriptor)) (k : String),
      rget (Settings.extractStoredVariables chain) k = latestDeclaration chain k := by
  intro chain k
  have h := rget_foldl_rassign chain [] k
  simpa [Settings.extractStoredVariables, rget, oOr_none_right] using h

/-- C5 (code_bug evidence): recursive invalid-variable collection sits inside
the loop over the node's own variables, so a root with ZERO own variables
reports no invalid variables even though its child declares the invalid
required variable "req"; the same child's variable IS reported when queried
directly, and IS collected recursively once the root has at least one own
variable. -/
theorem c5_recursive_collection_skipped_without_own_vars :
    Settings.getInvalidVariables true demoRootNoVars = [] ∧
    (Settings.getInvalidVariables false demoChildNode).map Prod.fst = ["req"] ∧
    (Settings.getInvalidVariables true demoRootOneVar).map Prod.fst = ["req"] :=
  ⟨rfl, rfl, rfl⟩

/-- Auxiliary for C6: the composite lookup equals the first non-absent
answer over the source list ('findSome?' of the present-filtered answers),
with `null` when none is present. -/
theorem anyGetValueList_eq_findSome : ∀ (sources : List ValueSource) (name : JSVal),
    anyGetValueList sources name =
      (sources.findSome? (fun s => if Value.isUndefined (s name) = true then none else some (s name))).getD .null
  | [], _ => rfl
  | s :: rest, name => by
    by_cases h : Value.isUndefined (s name) = true
    · simp [anyGetValueList, List.findSome?, h, anyGetValueList_eq_findSome rest name]
    · simp [anyGetValueList, List.findSome?, h]

/-- Auxiliary for C6: the composite reports absence (null) exactly when
every wrapped source reports absence for the key. -/
theorem anyGetValueList_null_iff : ∀ (sources : List ValueSource) (name : JSVal),
    anyGetValueList sources name = .null ↔ ∀ s ∈ sources, Value.isUndefined (s name) = true
  | [], name => by simp [anyGetValueList]
  | s :: rest, name => by
    by_cases h : Value.isUndefined (s name) = true
    · simp only [anyGetValueList, h, if_true, List.mem_cons]
      rw [anyGetValueList_null_iff rest name]
      constructor
      · intro hall s2 hs2
        cases hs2 with
        | inl he => exact he ▸ h
        | inr hm => exact hall s2 hm
      · intro hall s2 hs2
        exact hall s2 (Or.inr hs2)
    · have hite : anyGetValueList (s :: rest) name = s name := by
        simp [anyGetValueList, h]
      rw [hite]
      constructor
      · intro hnull
        rw [hnull] at h
        exact absurd rfl h
      · intro hall
        exact absurd (hall s (List.mem_cons_self s rest)) h

/-- C6: the composite source returns the value of the first wrapped source
whose answer is not absent, reports absence (null) iff every wrapped source
is absent for the key, and on the concrete pairs: with A lacking "X" and B
mapping it to "5" the composite yields "5"; when the first source also has a
value ("7"), the first source wins. -/
theorem c6_composite_first_present_wins :
    (∀ (sources : List ValueSource) (name : JSVal),
        (AnySource.mk sources).getValue name =
          (sources.findSome? (fun s => if Value.isUndefined (s name) = true then none else some (s name))).getD .null) ∧
    (∀ (sources : List ValueSource) (name : JSVal),
        (AnySource.mk sources).getValue name = .null ↔
          ∀ s ∈ sources, Value.isUndefined (s name) = true) ∧
    (AnySource.mk [demoSourceAbsent, demoSourceB5]).getValue (.str "X") = .str "5" ∧
    (AnySource.mk [demoSourceA7, demoSourceB5]).getValue (.str "X") = .str "7" ∧
    (AnySource.mk [demoSourceAbsent, demoSourceAbsent]).getValue (.str "X") = .null :=
  ⟨fun sources name => anyGetValueList_eq_findSome sources name,
   fun sources name => anyGetValueList_null_iff sources name,
   rfl, rfl, rfl⟩

/-- C7 counterexample: on the tokens ["-a", ""] the claim predicts that the
flag "-a" takes the present, non-dash following token "" as its value
(consuming it, leaving no positionals).  The code instead treats the falsy
empty token like an absent one: "-a" is stored with value null, the empty
token is not consumed and becomes a positional argument. -/
theorem c7_empty_token_counterexample :
    rget (mkCommandLineArguments ["-a", ""]).variablesMap ("-a") = some none ∧
    (mkCommandLineArguments ["-a", ""]).positional = [""] ∧
    ¬((mkCommandLineArguments ["-a", ""]).getValue (.str "-a") = .str "" ∧
      (mkCommandLineArguments ["-a", ""]).positional = []) := by
  refine ⟨rfl, rfl, ?_⟩
  intro h
  have h2 : (mkCommandLineArguments ["-a", ""]).positional = [""] := rfl
  rw [h2] at h
  simp at h

/-- C7 amended: tokens are processed left to right; a token without a
leading dash is appended to the positional list; a dash token becomes a flag
whose value is the immediately following token, except that when the
following token is absent, EMPTY, or itself starts with a dash, the flag's
value is recorded as null and no token is consumed. -/
theorem c7_parse_steps :
    (∀ (st : CommandLineArguments) (arg : String) (rest : List String),
        startsWithDash arg = false →
          CommandLineArguments.parseCommandLine (arg :: rest) st =
            CommandLineArguments.parseCommandLine rest
              { st with positional := st.positional ++ [arg] }) ∧
    (∀ (st : CommandLineArguments) (arg : String),
        startsWithDash arg = true →
          CommandLineArguments.parseCommandLine [arg] st =
            { st with variablesMap := rset st.variablesMap arg none }) ∧
    (∀ (st : CommandLineArguments) (arg next : String) (rest : List String),
        startsWithDash arg = true → (next = "" ∨ startsWithDash next = true) →
          CommandLineArguments.parseCommandLine (arg :: next :: rest) st =
            CommandLineArguments.parseCommandLine (next :: rest)
              { st with variablesMap := rset st.variablesMap arg none }) ∧
    (∀ (st : CommandLineArguments) (arg next : String) (rest : List String),
        startsWithDash arg = true → ¬(next = "" ∨ startsWithDash next = true) →
          CommandLineArguments.parseCommandLine (arg :: next :: rest) st =
            CommandLineArguments.parseCommandLine rest
              { st with variablesMap := rset st.variablesMap arg (some next) }) := by
  refine ⟨?_, ?_, ?_, ?_⟩
  · intro st arg rest h
    cases rest with
    | nil => simp [CommandLineArguments.parseCommandLine, h]
    | cons next rest2 => simp [CommandLineArguments.parseCommandLine, h]
  · intro st arg h
    simp [CommandLineArguments.parseCommandLine, h]
  · intro st arg next rest h hn
    simp [CommandLineArguments.parseCommandLine, h, hn]
  · intro st arg next rest h hn
    simp [CommandLineArguments.parseCommandLine, h, hn]

/-- C7 witness: the step equations applied at concrete inputs — a
positional token, a trailing flag, a flag followed by a dash token, and a
flag that consumes its value token. -/
theorem c7_parse_steps_witness :
    CommandLineArguments.parseCommandLine ["v"] { positional := [], variablesMap := [] } =
      CommandLineArguments.parseCommandLine [] { positional := ["v"], variablesMap := [] } ∧
    CommandLineArguments.parseCommandLine ["-a"] { positional := [], variablesMap := [] } =
      { positional := [], variablesMap := rset [] ("-a") none } ∧
    CommandLineArguments.parseCommandLine ["-a", "-b"] { positional := [], variablesMap := [] } =
      CommandLineArguments.parseCommandLine ["-b"] { positional := [], variablesMap := rset [] ("-a") none } ∧
    CommandLineArguments.parseCommandLine ["-p", "1"] { positional := [], variablesMap := [] } =
      CommandLineArguments.parseCommandLine [] { positional := [], variablesMap := rset [] ("-p") (some "1") } :=
  ⟨c7_parse_steps.1 { positional := [], variablesMap := [] } ("v") [] (by decide),
   c7_parse_steps.2.1 { positional := [], variablesMap := [] } ("-a") (by decide),
   c7_parse_steps.2.2.1 { positional := [], variablesMap := [] } ("-a") ("-b") [] (by decide) (by decide),
   c7_parse_steps.2.2.2 { positional := [], variablesMap := [] } ("-p") ("1") [] (by decide) (by decide)⟩

/-- C8: each of the six type converters is a total function whose result is
either the supplied default or a value of the target shape that is
determined by the raw input alone (the conversion succeeded, independent of
the default).  For the list converters the supplied default is one of the
target type (an array), as in the converters' signatures. -/
theorem c8_convert_total_default_or_coerced :
    (∀ raw d, stringTI.convert raw d = d ∨
        ((∃ s, stringTI.convert raw d = .str s) ∧
          ∀ d2, stringTI.convert raw d2 = stringTI.convert raw d)) ∧
    (∀ raw d, numberTI.convert raw d = d ∨
        ((∃ q, numberTI.convert raw d = .num q) ∧
          ∀ d2, numberTI.convert raw d2 = numberTI.convert raw d)) ∧
    (∀ raw d, booleanTI.convert raw d = d ∨
        ((∃ b, booleanTI.convert raw d = .bool b) ∧
          ∀ d2, booleanTI.convert raw d2 = booleanTI.convert raw d)) ∧
    (∀ raw ds, stringListTI.convert raw (.arr ds) = .arr ds ∨
        ((∃ xs, stringListTI.convert raw (.arr ds) = .arr xs) ∧
          ∀ d2, stringListTI.convert raw d2 = stringListTI.convert raw (.arr ds))) ∧
    (∀ raw ds, numberListTI.convert raw (.arr ds) = .arr ds ∨
        ((∃ xs, numberListTI.convert raw (.arr ds) = .arr xs) ∧
          ∀ d2, numberListTI.convert raw d2 = numberListTI.convert raw (.arr ds))) ∧
    (∀ raw ds, booleanListTI.convert raw (.arr ds) = .arr ds ∨
        ((∃ xs, booleanListTI.convert raw (.arr ds) = .arr xs) ∧
          ∀ d2, booleanListTI.convert raw d2 = booleanListTI.convert raw (.arr ds))) :=
  ⟨getString_default_or_coerced,
   getNumber_default_or_coerced,
   getBoolean_default_or_coerced,
   fun raw ds => getArray_default_or_coerced Value.getString raw ds,
   fun raw ds => getArray_default_or_coerced Value.getNumber raw ds,
   fun raw ds => getArray_default_or_coerced Value.getBoolean raw ds⟩

/-- C9: when the descriptor's static default is present, the bound
property's initial mutable default is `type.convert` applied to the STRING
form of the static default, with no fallback (undefined as the converter's
default argument). -/
theorem c9_initial_default_from_string_form (s : IPropertyDescriptor)
    (h : Value.isUndefined s.defaultVal = false) :
    (bindProp s).mutDefault = s.typeInfo.convert (.str (jsToString s.defaultVal)) .undefined := by
  simp [bindProp, h]

/-- C9 witness: for a string-typed descriptor whose static default is the
whitespace-only string " ", the seeding applies the string converter to " "
with no fallback, so the initial mutable default is undefined. -/
theorem c9_initial_default_witness :
    Value.isUndefined demoC9Descriptor.defaultVal = false ∧
    (bindProp demoC9Descriptor).mutDefault = JSVal.undefined := by
  constructor
  · rfl
  · rw [c9_initial_default_from_string_form demoC9Descriptor rfl]
    rfl

/-- C10: for every token sequence, the flag table lookup behind
`getValue` answers with the value derived from the LAST occurrence of the
flag in the sequence (null for a trailing or dash-followed occurrence, the
consumed token otherwise, undefined when the flag never occurs); in
particular with ["-p", "1", "-p", "2"] the flag "-p" reads "2". -/
theorem c10_last_flag_occurrence_wins :
    (∀ (argv : List String) (f : String),
        (mkCommandLineArguments argv).getValue (.str f) =
          (match lastFlagValue f argv with
           | some (some v) => .str v
           | some none => .null
           | none => .undefined)) ∧
    (mkCommandLineArguments ["-p", "1", "-p", "2"]).getValue (.str "-p") = .str "2" := by
  constructor
  · intro argv f
    have h := parse_variables_lookup argv { positional := [], variablesMap := [] } f
    have h0 : rget ([] : RecordJS (Option String)) f = none := rfl
    rw [h0, oOr_none_right] at h
    show (match rget (CommandLineArguments.parseCommandLine argv
        { positional := [], variablesMap := [] }).variablesMap (jsToString (.str f)) with
      | some (some s) => JSVal.str s
      | some none => JSVal.null
      | none => JSVal.undefined) = _
    have hf : jsToString (.str f) = f := rfl
    rw [hf, h]
  · rfl
